import Mathlib

/-!
Verification of the koine SDK streaming core
(packages/sdks/python/src/koine_sdk/client.py): the SSE frame decoder
(_parse_sse_stream), the event reconciler with its three deferred slots
(_process_sse_stream), and the stream-session orchestration (stream_text),
shallowly embedded as executable Lean definitions.  Raw text is embedded as
List Char, asyncio futures as an explicit three-state slot type, and the two
async generators as pure functions from their input lists to the produced
frame/state/trace data.
-/

namespace Koine

/-! ### Frame decoder: client.py, _parse_sse_stream (lines 182-224) -/

abbrev Chars := List Char

/-- Decoded SSE frame: event type and data, both as character lists. -/
abbrev Frame := Chars × Chars

/-- Python buffer.split on a two-newline separator with maxsplit one: the part
before the first occurrence of two consecutive newline characters, and the part
after it; none when no such occurrence exists (client.py lines 197-198). -/
def splitOnceNN : Chars → Option (Chars × Chars)
  | [] => none
  | [_] => none
  | c1 :: c2 :: rest =>
      if c1 = '\n' ∧ c2 = '\n' then some ([], rest)
      else (splitOnceNN (c2 :: rest)).map (fun p => (c1 :: p.1, p.2))

/-- Python str.split on a single newline: the list of lines; an empty input
gives one empty line (client.py lines 204 and 217). -/
def splitLines : Chars → List Chars
  | [] => [[]]
  | c :: rest =>
      if c = '\n' then [] :: splitLines rest
      else
        match splitLines rest with
        | [] => [[c]]
        | l :: ls => (c :: l) :: ls

/-- Seven-character event-line marker of the source (line 205). -/
def eventMark : Chars := "event: ".toList

/-- Six-character data-line marker of the source (line 207). -/
def dataMark : Chars := "data: ".toList

/-- Python default str.strip strips exactly these whitespace characters. -/
def isPyWhitespace (c : Char) : Bool :=
  c = ' ' ∨ c = '\t' ∨ c = '\n' ∨ c = '\r' ∨ c = Char.ofNat 11 ∨ c = Char.ofNat 12

/-- Python test "not s.strip()": true exactly when every character of s is
whitespace (client.py lines 199 and 214). -/
def stripEmpty (s : Chars) : Bool := s.all isPyWhitespace

/-- Line scan of one SSE segment (client.py lines 204-208, likewise 217-221):
a line starting with the event marker overwrites the event type with the rest
of that line, otherwise a line starting with the data marker overwrites the
data; all other lines are ignored, so the last marked line of each kind wins. -/
def scanStep (acc : Chars × Chars) (l : Chars) : Chars × Chars :=
  if eventMark.isPrefixOf l then (l.drop 7, acc.2)
  else if dataMark.isPrefixOf l then (acc.1, l.drop 6)
  else acc

def scanLines (ls : List Chars) : Chars × Chars := ls.foldl scanStep ([], [])

/-- Parse of one complete SSE segment (client.py lines 199-211; the flush path
of lines 214-224 is the same computation): blank segments produce nothing, and
a frame is produced only when both the scanned event type and the scanned data
are nonempty. -/
def parseSegment (seg : Chars) : List Frame :=
  if stripEmpty seg then []
  else if (scanLines (splitLines seg)).1 = [] ∨ (scanLines (splitLines seg)).2 = [] then []
  else [((scanLines (splitLines seg)).1, (scanLines (splitLines seg)).2)]

/-- Inner while loop of _parse_sse_stream (lines 197-211): repeatedly split the
part of the buffer before the first double newline off, parse it as a segment,
and continue on the rest.  The fuel argument only bounds the recursion depth
and is irrelevant once it is at least the buffer length. -/
def drainAux : Nat → Chars → List Frame × Chars
  | 0, b => ([], b)
  | fuel + 1, b =>
      match splitOnceNN b with
      | none => ([], b)
      | some (seg, rest) =>
          let r := drainAux fuel rest
          (parseSegment seg ++ r.1, r.2)

def drainBuffer (b : Chars) : List Frame × Chars := drainAux b.length b

/-- Chunk loop of _parse_sse_stream (lines 192-211): each incoming chunk is
appended to the carry-over buffer and all complete segments are drained. -/
def feedChunks (buf : Chars) : List Chars → List Frame × Chars
  | [] => ([], buf)
  | c :: cs =>
      let r := drainBuffer (buf ++ c)
      let r2 := feedChunks r.2 cs
      (r.1 ++ r2.1, r2.2)

/-- Whole decoder _parse_sse_stream (lines 182-224): the frames of the chunk
loop followed by the flush of the residual buffer (lines 213-224), which is
parsed exactly like one complete segment. -/
def parse_sse_stream (chunks : List Chars) : List Frame :=
  let r := feedChunks [] chunks
  r.1 ++ parseSegment r.2

/-! ### Deferred slots and errors: asyncio futures as used by the reconciler -/

/-- Usage statistics carried by the result event (types.py, KoineUsage). -/
structure KoineUsage where
  inputTokens : Int
  outputTokens : Int
  totalTokens : Int
deriving DecidableEq

/-- Modelled from the spec: koine_sdk.errors.KoineError is referenced by
client.py but its module is not under src; per its construction sites in
client.py, its use in tests/test_client.py and spec section 7 it is an error
value carrying a message, a code, and optional raw text. -/
structure KoineError where
  message : String
  code : String
  rawText : Option String := none
deriving DecidableEq

/-- State of one asyncio future used as a single-assignment slot: pending,
resolved with a value, or failed with an error. -/
inductive SlotState (α : Type) where
  | pending
  | resolved (v : α)
  | failed (e : KoineError)
deriving DecidableEq

/-- asyncio Future.done(): true once the future holds a result or an error. -/
def SlotState.isDone {α : Type} : SlotState α → Bool
  | .pending => false
  | _ => true

/-! ### Event reconciler: client.py, _process_sse_stream (lines 227-308) -/

/-- Events as the reconciler dispatch observes them (client.py lines 241-295):
the event type together with the outcome of parsing the frame data with the
pydantic model of that event type (none embeds a json decode or validation
failure).  A done event carries its raw data unparsed, because the source
never parses it (lines 277-280); every other event type falls through all
branches without effect. -/
inductive Ev where
  | session (parsed : Option String)
  | text (parsed : Option String)
  | result (parsed : Option (String × KoineUsage))
  | error (parsed : Option (String × Option String))
  | done (data : String)
  | other (etype : String)
deriving DecidableEq

/-- Reconciler state: the three slots, the accumulated text (line 238), and
the trace of text fragments yielded outward so far. -/
structure RecState where
  sessionSlot : SlotState String
  usageSlot : SlotState KoineUsage
  textSlot : SlotState String
  accumulated : String
  yielded : List String
deriving DecidableEq

def initState : RecState :=
  { sessionSlot := .pending, usageSlot := .pending, textSlot := .pending
    accumulated := "", yielded := [] }

/-- Terminal behaviour of the outward text sequence: normal completion, a
raised KoineError, or an asyncio InvalidStateError escaping from an unguarded
set_result call. -/
inductive StreamOutcome where
  | completed
  | raisedError (e : KoineError)
  | invalidState
deriving DecidableEq

def sseParseError (etype : String) : KoineError :=
  { message := "Failed to parse critical SSE event: " ++ etype
    code := "SSE_PARSE_ERROR" }

def noSessionError : KoineError :=
  { message := "Stream ended without session ID", code := "NO_SESSION" }

def noUsageError : KoineError :=
  { message := "Stream ended without usage information", code := "NO_USAGE" }

/-- Guarded failure as written at every set_exception site of the source:
only a still-pending future is failed, a terminal one is left alone. -/
def failIfPending {α : Type} (s : SlotState α) (e : KoineError) : SlotState α :=
  if s.isDone then s else .failed e

/-- Rejection of all unresolved futures with one error (client.py lines
268-274, likewise 288-293): usage, text and session, each guarded. -/
def failPending (s : RecState) (e : KoineError) : RecState :=
  { s with
      usageSlot := failIfPending s.usageSlot e
      textSlot := failIfPending s.textSlot e
      sessionSlot := failIfPending s.sessionSlot e }

/-- Result of one loop iteration: continue with a new state, or abort the
loop with a final loop state and an outcome that propagates outward. -/
inductive StepResult where
  | next (s : RecState)
  | halt (s : RecState) (o : StreamOutcome)

/-- State carried by a step result, whether the loop continues or aborts. -/
def StepResult.state : StepResult → RecState
  | .next s => s
  | .halt s _ => s

/-- Python expression of client.py line 266 building the error code: the or
falls through on any falsy left operand, so both a missing code (None) and a
supplied empty-string code are replaced by STREAM_ERROR, while any nonempty
code is kept verbatim. -/
def orStreamError (c : Option String) : String :=
  match c with
  | none => "STREAM_ERROR"
  | some code => if code = "" then "STREAM_ERROR" else code

/-- One iteration of the event loop of _process_sse_stream (lines 241-295).
A session event resolves the session slot when still pending (246-249); a text
event appends to the accumulated text and yields it (251-254); a result event
calls set_result on the usage future without a done() guard, which raises
InvalidStateError when that future is already terminal (258), and otherwise
resolves usage and falls back to resolving a still-pending session slot (259-
260); an error event fails every pending slot with the payload error, whose code
falls back to STREAM_ERROR for a missing or empty code, and raises it
(262-275); a done event resolves a pending
text slot with the accumulated snapshot (277-280); a parse failure on a
critical event fails every pending slot with the SSE parse error and raises it
(282-294), while a parse failure on a text event is swallowed (295). -/
def processEvent (s : RecState) : Ev → StepResult
  | .session (some sid) =>
      .next { s with sessionSlot :=
        if s.sessionSlot.isDone then s.sessionSlot else .resolved sid }
  | .session none =>
      .halt (failPending s (sseParseError ("session")))
        (.raisedError (sseParseError ("session")))
  | .text (some t) =>
      .next { s with accumulated := s.accumulated ++ t, yielded := s.yielded ++ [t] }
  | .text none => .next s
  | .result (some p) =>
      if s.usageSlot.isDone then .halt s .invalidState
      else
        .next { s with
          usageSlot := .resolved p.2
          sessionSlot := if s.sessionSlot.isDone then s.sessionSlot else .resolved p.1 }
  | .result none =>
      .halt (failPending s (sseParseError ("result")))
        (.raisedError (sseParseError ("result")))
  | .error (some p) =>
      .halt (failPending s { message := p.1, code := orStreamError p.2 })
        (.raisedError { message := p.1, code := orStreamError p.2 })
  | .error none =>
      .halt (failPending s (sseParseError ("error")))
        (.raisedError (sseParseError ("error")))
  | .done _ =>
      .next { s with textSlot :=
        if s.textSlot.isDone then s.textSlot else .resolved s.accumulated }
  | .other _ => .next s

/-- Finally block of _process_sse_stream (lines 297-308), the end-of-stream
reconciliation: a pending session slot fails with NO_SESSION, a pending usage
slot fails with NO_USAGE, and a pending text slot resolves with the
accumulated text. -/
def endReconcile (s : RecState) : RecState :=
  { s with
      sessionSlot := failIfPending s.sessionSlot noSessionError
      usageSlot := failIfPending s.usageSlot noUsageError
      textSlot := if s.textSlot.isDone then s.textSlot else .resolved s.accumulated }

/-- Event loop of _process_sse_stream: runs until the decoded events are
exhausted (no outcome yet) or an iteration raises and aborts the loop. -/
def runLoop (s : RecState) : List Ev → RecState × Option StreamOutcome
  | [] => (s, none)
  | ev :: rest =>
      match processEvent s ev with
      | .next s2 => runLoop s2 rest
      | .halt s2 o => (s2, some o)

/-- Whole generator _process_sse_stream on a list of decoded events: the event
loop followed by the finally block, which runs on every exit path; an upstream
exhaustion without a raise completes the outward sequence normally. -/
def runStream (evs : List Ev) : RecState × StreamOutcome :=
  let r := runLoop initState evs
  (endReconcile r.1, r.2.getD .completed)

/-- Observable reconciler state after the first k transitions of a run over
evs: the loop state while the loop is still live, and the finally-reconciled
state as soon as the loop has raised or k moves past the end of the events. -/
def stateAt (evs : List Ev) (k : Nat) : RecState :=
  let r := runLoop initState (evs.take k)
  if k ≤ evs.length ∧ r.2 = none then r.1 else endReconcile r.1

/-! ### Stream session: client.py, _parse_error_response and stream_text -/

/-- Error payload shape of the gateway (types.py, GatewayErrorResponse). -/
structure GatewayErrorResponse where
  error : String
  code : String
  rawText : Option String := none
deriving DecidableEq

/-- Initial HTTP response of stream_text as this layer observes it: the status
code, the reason phrase, and the outcome of parsing the fully read body as a
GatewayErrorResponse (none embeds a json decode or validation failure). -/
structure HttpResponse where
  statusCode : Nat
  reasonPhrase : String
  errorBody : Option GatewayErrorResponse
deriving DecidableEq

/-- httpx Response.is_success: the status code is in the 2xx range. -/
def HttpResponse.isSuccess (r : HttpResponse) : Bool :=
  200 ≤ r.statusCode ∧ r.statusCode < 300

/-- Translation of _parse_error_response (client.py lines 30-44): a body that
parses as a gateway error yields its message, code and raw text; otherwise a
generic error with code HTTP_ERROR whose message carries the numeric status
code and the reason phrase. -/
def parse_error_response (r : HttpResponse) : KoineError :=
  match r.errorBody with
  | some g => { message := g.error, code := g.code, rawText := g.rawText }
  | none =>
      { message := "HTTP " ++ toString r.statusCode ++ " " ++ r.reasonPhrase
        code := "HTTP_ERROR" }

/-- Transport-level actions of the stream session, in trace order. -/
inductive SessionAction where
  | readBody
  | closeResponse
  | closeClient
  | yieldText (t : String)
deriving DecidableEq

/-- Open step of stream_text on the initial response (client.py lines 361-364
and 386-391): a non-2xx response first reads the body to completion, then
closes the HTTP client, then raises the parsed error; a 2xx response performs
no transport action here and returns the wired stream result. -/
def streamTextOpen (r : HttpResponse) : List SessionAction × Option KoineError :=
  if r.isSuccess then ([], none)
  else ([.readBody, .closeClient], some (parse_error_response r))

/-- Transport trace of text_stream_generator (client.py lines 373-384) run
over the given decoded events, abandoned after k pulled events when k is
given: the try body yields the loop output and the finally block closes the
response and then the client on every exit path of the generator (normal end,
raised error, and generator close on abandonment). -/
def sessionTrace (evs : List Ev) (abandonAfter : Option Nat) : List SessionAction :=
  let processed := match abandonAfter with | none => evs | some k => evs.take k
  ((runLoop initState processed).1.yielded.map SessionAction.yieldText)
    ++ [.closeResponse, .closeClient]

/-! ### Decoder lemmas -/

theorem splitOnceNN_spec (b : Chars) :
    ∀ seg rest, splitOnceNN b = some (seg, rest) → b = seg ++ '\n' :: '\n' :: rest := by
  induction b with
  | nil => intro seg rest h; simp [splitOnceNN] at h
  | cons c1 t ih =>
    intro seg rest h
    cases t with
    | nil => simp [splitOnceNN] at h
    | cons c2 t2 =>
      rw [splitOnceNN] at h
      by_cases hc : c1 = '\n' ∧ c2 = '\n'
      · rw [if_pos hc] at h
        obtain ⟨h1, h2⟩ := Prod.mk.injEq .. |>.mp (Option.some.injEq .. |>.mp h)
        subst h1; subst h2
        simp [hc.1, hc.2]
      · rw [if_neg hc] at h
        obtain ⟨⟨s2, r2⟩, hsr, heq⟩ := Option.map_eq_some'.mp h
        obtain ⟨h1, h2⟩ := Prod.mk.injEq .. |>.mp heq
        subst h1; subst h2
        have := ih s2 r2 hsr
        simp [this]

theorem splitOnceNN_rest_lt (b seg rest : Chars) (h : splitOnceNN b = some (seg, rest)) :
    rest.length < b.length := by
  have hb := splitOnceNN_spec b seg rest h
  subst hb
  simp
  omega

theorem splitOnceNN_append (b : Chars) :
    ∀ (c seg rest : Chars), splitOnceNN b = some (seg, rest) →
      splitOnceNN (b ++ c) = some (seg, rest ++ c) := by
  induction b with
  | nil => intro c seg rest h; simp [splitOnceNN] at h
  | cons c1 t ih =>
    intro c seg rest h
    cases t with
    | nil => simp [splitOnceNN] at h
    | cons c2 t2 =>
      rw [splitOnceNN] at h
      by_cases hc : c1 = '\n' ∧ c2 = '\n'
      · rw [if_pos hc] at h
        obtain ⟨h1, h2⟩ := Prod.mk.injEq .. |>.mp (Option.some.injEq .. |>.mp h)
        rw [← h1, ← h2]
        simp only [List.cons_append]
        rw [splitOnceNN, if_pos hc]
      · rw [if_neg hc] at h
        obtain ⟨⟨s2, r2⟩, hsr, heq⟩ := Option.map_eq_some'.mp h
        obtain ⟨h1, h2⟩ := Prod.mk.injEq .. |>.mp heq
        rw [← h1, ← h2]
        simp only [List.cons_append]
        rw [splitOnceNN, if_neg hc]
        have hih := ih c s2 r2 hsr
        simp only [List.cons_append] at hih
        rw [hih]
        rfl

theorem drainAux_fuel_irrel (f1 : Nat) :
    ∀ (f2 : Nat) (b : Chars), b.length ≤ f1 → b.length ≤ f2 →
      drainAux f1 b = drainAux f2 b := by
  induction f1 with
  | zero =>
    intro f2 b h1 h2
    have hb : b = [] := List.eq_nil_of_length_eq_zero (Nat.le_zero.mp h1)
    subst hb
    cases f2 with
    | zero => rfl
    | succ f2 => simp [drainAux, splitOnceNN]
  | succ f1 ih =>
    intro f2 b h1 h2
    cases hs : splitOnceNN b with
    | none =>
      cases f2 with
      | zero =>
        have hb : b = [] := List.eq_nil_of_length_eq_zero (Nat.le_zero.mp h2)
        subst hb
        simp [drainAux, splitOnceNN]
      | succ f2 => simp [drainAux, hs]
    | some p =>
      obtain ⟨seg, rest⟩ := p
      have hlt := splitOnceNN_rest_lt b seg rest hs
      cases f2 with
      | zero =>
        have hb : b = [] := List.eq_nil_of_length_eq_zero (Nat.le_zero.mp h2)
        subst hb
        simp [splitOnceNN] at hs
      | succ f2 =>
        simp only [drainAux, hs]
        rw [ih f2 rest (by omega) (by omega)]

theorem drainBuffer_eq (b : Chars) :
    drainBuffer b =
      match splitOnceNN b with
      | none => ([], b)
      | some (seg, rest) =>
          (parseSegment seg ++ (drainBuffer rest).1, (drainBuffer rest).2) := by
  unfold drainBuffer
  cases hs : splitOnceNN b with
  | none =>
    cases b with
    | nil => simp [drainAux]
    | cons c t => simp [drainAux, hs]
  | some p =>
    obtain ⟨seg, rest⟩ := p
    have hlt := splitOnceNN_rest_lt b seg rest hs
    cases b with
    | nil => simp [splitOnceNN] at hs
    | cons c t =>
      simp only [List.length_cons, drainAux, hs]
      have hle : rest.length ≤ t.length := by
        simp only [List.length_cons] at hlt
        omega
      rw [drainAux_fuel_irrel t.length rest.length rest hle le_rfl]

theorem drainBuffer_append (n : Nat) :
    ∀ (b c : Chars), b.length ≤ n →
      drainBuffer (b ++ c) =
        ((drainBuffer b).1 ++ (drainBuffer ((drainBuffer b).2 ++ c)).1,
          (drainBuffer ((drainBuffer b).2 ++ c)).2) := by
  induction n with
  | zero =>
    intro b c hb
    have hb0 : b = [] := List.eq_nil_of_length_eq_zero (Nat.le_zero.mp hb)
    subst hb0
    have h0 : drainBuffer ([] : Chars) = ([], []) := rfl
    simp [h0]
  | succ n ih =>
    intro b c hb
    cases hs : splitOnceNN b with
    | none =>
      rw [drainBuffer_eq b, hs]
      simp
    | some p =>
      obtain ⟨seg, rest⟩ := p
      have hlt := splitOnceNN_rest_lt b seg rest hs
      rw [drainBuffer_eq b, hs]
      rw [drainBuffer_eq (b ++ c), splitOnceNN_append b c seg rest hs]
      simp only
      rw [ih rest c (by omega)]
      simp [List.append_assoc]

theorem drainBuffer_rest_none (n : Nat) :
    ∀ (b : Chars), b.length ≤ n → splitOnceNN (drainBuffer b).2 = none := by
  induction n with
  | zero =>
    intro b hb
    have hb0 : b = [] := List.eq_nil_of_length_eq_zero (Nat.le_zero.mp hb)
    subst hb0
    rfl
  | succ n ih =>
    intro b hb
    cases hs : splitOnceNN b with
    | none => rw [drainBuffer_eq b, hs]; exact hs
    | some p =>
      obtain ⟨seg, rest⟩ := p
      have hlt := splitOnceNN_rest_lt b seg rest hs
      rw [drainBuffer_eq b, hs]
      exact ih rest (by omega)

theorem feedChunks_eq (cs : List Chars) :
    ∀ (buf : Chars), splitOnceNN buf = none →
      feedChunks buf cs = drainBuffer (buf ++ cs.flatten) := by
  induction cs with
  | nil =>
    intro buf h
    rw [feedChunks]
    rw [show buf ++ ([] : List Chars).flatten = buf by simp]
    rw [drainBuffer_eq buf, h]
  | cons c cs ih =>
    intro buf h
    simp only [feedChunks]
    rw [ih (drainBuffer (buf ++ c)).2 (drainBuffer_rest_none (buf ++ c).length _ le_rfl)]
    rw [show buf ++ (c :: cs).flatten = (buf ++ c) ++ cs.flatten by simp]
    rw [drainBuffer_append (buf ++ c).length (buf ++ c) cs.flatten le_rfl]

theorem drainBuffer_some (b seg rest : Chars) (h : splitOnceNN b = some (seg, rest)) :
    drainBuffer b = (parseSegment seg ++ (drainBuffer rest).1, (drainBuffer rest).2) := by
  rw [drainBuffer_eq b, h]

theorem splitOnceNN_seg (seg : Chars) :
    ∀ rest, splitOnceNN (seg ++ ['\n']) = none →
      splitOnceNN (seg ++ '\n' :: '\n' :: rest) = some (seg, rest) := by
  induction seg with
  | nil =>
    intro rest h
    simp only [List.nil_append]
    rw [splitOnceNN]
    simp
  | cons c1 t ih =>
    intro rest h
    cases t with
    | nil =>
      have hc : ¬ (c1 = '\n' ∧ '\n' = '\n') := by
        intro hc
        rw [show ([c1] ++ ['\n'] : Chars) = c1 :: '\n' :: [] from rfl] at h
        rw [splitOnceNN, if_pos hc] at h
        exact Option.noConfusion h
      simp only [List.cons_append, List.nil_append]
      rw [splitOnceNN, if_neg hc]
      rw [show splitOnceNN ('\n' :: '\n' :: rest) = some ([], rest) by
        rw [splitOnceNN]; simp]
      rfl
    | cons c2 t2 =>
      have hc : ¬ (c1 = '\n' ∧ c2 = '\n') := by
        intro hc
        simp only [List.cons_append] at h
        rw [splitOnceNN, if_pos hc] at h
        exact Option.noConfusion h
      have h2 : splitOnceNN ((c2 :: t2) ++ ['\n']) = none := by
        simp only [List.cons_append] at h ⊢
        rw [splitOnceNN, if_neg hc] at h
        exact Option.map_eq_none'.mp h
      simp only [List.cons_append]
      rw [splitOnceNN, if_neg hc]
      have hih := ih rest h2
      simp only [List.cons_append] at hih
      rw [hih]
      rfl

theorem scan_fst_event (ls : List Chars) :
    ∀ acc : Chars × Chars,
      (ls.foldl scanStep acc).1 = acc.1 ∨ ∃ l, l ∈ ls ∧ eventMark.isPrefixOf l := by
  induction ls with
  | nil => intro acc; exact Or.inl rfl
  | cons l ls ih =>
    intro acc
    simp only [List.foldl_cons]
    by_cases he : eventMark.isPrefixOf l
    · exact Or.inr ⟨l, List.mem_cons_self l ls, he⟩
    · rcases ih (scanStep acc l) with h | h
      · left
        rw [h]
        by_cases hd : dataMark.isPrefixOf l <;> simp [scanStep, he, hd]
      · right
        obtain ⟨l2, hm, hp⟩ := h
        exact ⟨l2, List.mem_cons_of_mem l hm, hp⟩

theorem scan_snd_data (ls : List Chars) :
    ∀ acc : Chars × Chars,
      (ls.foldl scanStep acc).2 = acc.2 ∨ ∃ l, l ∈ ls ∧ dataMark.isPrefixOf l := by
  induction ls with
  | nil => intro acc; exact Or.inl rfl
  | cons l ls ih =>
    intro acc
    simp only [List.foldl_cons]
    by_cases hd : dataMark.isPrefixOf l
    · exact Or.inr ⟨l, List.mem_cons_self l ls, hd⟩
    · rcases ih (scanStep acc l) with h | h
      · left
        rw [h]
        by_cases he : eventMark.isPrefixOf l <;> simp [scanStep, he, hd]
      · right
        obtain ⟨l2, hm, hp⟩ := h
        exact ⟨l2, List.mem_cons_of_mem l hm, hp⟩

theorem drain_segments (segs : List Chars)
    (h : ∀ s, s ∈ segs → splitOnceNN (s ++ ['\n']) = none) :
    drainBuffer ((segs.map (fun s => s ++ ['\n', '\n'])).flatten)
      = ((segs.map parseSegment).flatten, []) := by
  induction segs with
  | nil => rfl
  | cons seg segs ih =>
    have hseg := h seg (List.mem_cons_self seg segs)
    have hrest : ∀ s, s ∈ segs → splitOnceNN (s ++ ['\n']) = none :=
      fun s hs => h s (List.mem_cons_of_mem seg hs)
    simp only [List.map_cons, List.flatten_cons]
    rw [show (seg ++ ['\n', '\n']) ++ (segs.map (fun s => s ++ ['\n', '\n'])).flatten
        = seg ++ '\n' :: '\n' :: (segs.map (fun s => s ++ ['\n', '\n'])).flatten by simp]
    rw [drainBuffer_some _ _ _ (splitOnceNN_seg seg _ hseg)]
    rw [ih hrest]

/-- Claim C3: for every raw input string and every partition of it into
chunks, feeding the chunks one at a time through the frame decoder, final
flush of the residual buffer included, yields exactly the same sequence of
frames, in the same order, as feeding the entire string as a single chunk. -/
theorem C3_chunk_boundary_independence (chunks : List Chars) :
    parse_sse_stream chunks = parse_sse_stream [chunks.flatten] := by
  unfold parse_sse_stream
  rw [feedChunks_eq chunks [] rfl, feedChunks_eq [chunks.flatten] [] rfl]
  simp

/-- Claim C7 counterexample: the decoder emits a frame for a complete segment
whose data line comes before its event line, so the claim that a frame is
emitted only when a first line starts with the event marker and a later line
starts with the data marker is false on the code: here no line order of that
shape exists, yet the frame is produced. -/
theorem C7_counterexample :
    parse_sse_stream [("data: d\nevent: t\n\n".toList)]
        = [("t".toList, "d".toList)]
    ∧ splitLines ("data: d\nevent: t".toList)
        = ["data: d".toList, "event: t".toList]
    ∧ eventMark.isPrefixOf ("data: d".toList) = false
    ∧ dataMark.isPrefixOf ("event: t".toList) = false := by
  decide

/-- Claim C7 (amended): for every complete segment the frame decoder emits at
most one frame, and only when some line of the segment starts with the event
marker and some line starts with the data marker, in either order; segments
lacking either are dropped silently, and frames of consecutive complete
segments are emitted strictly in arrival order. -/
theorem C7_segment_parsing (segs : List Chars) (seg : Chars)
    (h : ∀ s, s ∈ segs → splitOnceNN (s ++ ['\n']) = none) :
    parse_sse_stream [(segs.map (fun s => s ++ ['\n', '\n'])).flatten]
        = (segs.map parseSegment).flatten
    ∧ (parseSegment seg).length ≤ 1
    ∧ (parseSegment seg ≠ [] →
        (∃ l, l ∈ splitLines seg ∧ eventMark.isPrefixOf l)
        ∧ (∃ l, l ∈ splitLines seg ∧ dataMark.isPrefixOf l)) := by
  refine ⟨?_, ?_, ?_⟩
  · unfold parse_sse_stream
    rw [feedChunks_eq _ [] rfl]
    rw [show ([] : Chars) ++ [(segs.map (fun s => s ++ ['\n', '\n'])).flatten].flatten
        = (segs.map (fun s => s ++ ['\n', '\n'])).flatten by simp]
    rw [drain_segments segs h]
    simp [parseSegment, stripEmpty]
  · unfold parseSegment
    split
    · simp
    · split <;> simp
  · intro hne
    by_cases hstrip : stripEmpty seg
    · exact absurd (by simp [parseSegment, hstrip]) hne
    · have hp : ¬ ((scanLines (splitLines seg)).1 = [] ∨ (scanLines (splitLines seg)).2 = []) := by
        intro hor
        exact hne (by unfold parseSegment; rw [if_neg hstrip, if_pos hor])
      push_neg at hp
      constructor
      · rcases scan_fst_event (splitLines seg) ([], []) with h1 | h1
        · exact absurd h1 hp.1
        · exact h1
      · rcases scan_snd_data (splitLines seg) ([], []) with h2 | h2
        · exact absurd h2 hp.2
        · exact h2

/-- Witness for C7_segment_parsing at a concrete segment list and segment. -/
theorem C7_segment_parsing_witness :
    (∀ s, s ∈ (["event: a\ndata: b".toList, "xjunk".toList] : List Chars)
        → splitOnceNN (s ++ ['\n']) = none)
    ∧ (parse_sse_stream
          [((["event: a\ndata: b".toList, "xjunk".toList] : List Chars).map
              (fun s => s ++ ['\n', '\n'])).flatten]
          = ((["event: a\ndata: b".toList, "xjunk".toList] : List Chars).map
              parseSegment).flatten
        ∧ (parseSegment ("data: d\nevent: t".toList)).length ≤ 1
        ∧ (parseSegment ("data: d\nevent: t".toList) ≠ [] →
            (∃ l, l ∈ splitLines ("data: d\nevent: t".toList)
                ∧ eventMark.isPrefixOf l)
            ∧ (∃ l, l ∈ splitLines ("data: d\nevent: t".toList)
                ∧ dataMark.isPrefixOf l))) :=
  ⟨by decide,
    C7_segment_parsing ["event: a\ndata: b".toList, "xjunk".toList]
      ("data: d\nevent: t".toList) (by decide)⟩

/-! ### Reconciler lemmas -/

theorem join_snoc (l : List String) (t : String) :
    String.join (l ++ [t]) = String.join l ++ t := by
  simp [String.join, List.foldl_append]

theorem endReconcile_text_terminal (s : RecState) :
    (endReconcile s).textSlot ≠ .pending := by
  cases h : s.textSlot <;> simp [endReconcile, SlotState.isDone, h]

theorem processEvent_acc (s : RecState) (ev : Ev)
    (h : s.accumulated = String.join s.yielded) :
    (processEvent s ev).state.accumulated
      = String.join (processEvent s ev).state.yielded := by
  cases ev with
  | session p => cases p <;> simp [processEvent, StepResult.state, failPending, h]
  | text p =>
      cases p with
      | none => simpa [processEvent, StepResult.state] using h
      | some t => simp [processEvent, StepResult.state, h, join_snoc]
  | result p =>
      cases p with
      | none => simp [processEvent, StepResult.state, failPending, h]
      | some q =>
          by_cases hd : s.usageSlot.isDone <;>
            simp [processEvent, StepResult.state, hd, h]
  | error p => cases p <;> simp [processEvent, StepResult.state, failPending, h]
  | done d => simp [processEvent, StepResult.state, h]
  | other t => simp [processEvent, StepResult.state, h]

theorem runLoop_acc (evs : List Ev) :
    ∀ s : RecState, s.accumulated = String.join s.yielded →
      (runLoop s evs).1.accumulated = String.join (runLoop s evs).1.yielded := by
  induction evs with
  | nil => intro s h; exact h
  | cons ev rest ih =>
    intro s h
    have hstep := processEvent_acc s ev h
    rw [runLoop]
    cases hpe : processEvent s ev with
    | next s2 =>
      rw [hpe] at hstep
      exact ih s2 hstep
    | halt s2 o =>
      rw [hpe] at hstep
      exact hstep

theorem runLoop_append_none (l1 l2 : List Ev) :
    ∀ (s s1 : RecState), runLoop s l1 = (s1, none) →
      runLoop s (l1 ++ l2) = runLoop s1 l2 := by
  induction l1 with
  | nil =>
    intro s s1 h
    rw [runLoop] at h
    obtain ⟨h1, h2⟩ := Prod.mk.injEq .. |>.mp h
    rw [List.nil_append, h1]
  | cons ev rest ih =>
    intro s s1 h
    rw [runLoop] at h
    rw [List.cons_append, runLoop]
    cases hpe : processEvent s ev with
    | next s2 =>
      rw [hpe] at h
      exact ih _ _ h
    | halt s2 o =>
      rw [hpe] at h
      obtain ⟨h1, h2⟩ := Prod.mk.injEq .. |>.mp h
      exact absurd h2 (by simp)

theorem runLoop_append_some (l1 l2 : List Ev) :
    ∀ (s s1 : RecState) (o : StreamOutcome), runLoop s l1 = (s1, some o) →
      runLoop s (l1 ++ l2) = (s1, some o) := by
  induction l1 with
  | nil =>
    intro s s1 o h
    rw [runLoop] at h
    obtain ⟨h1, h2⟩ := Prod.mk.injEq .. |>.mp h
    exact absurd h2 (by simp)
  | cons ev rest ih =>
    intro s s1 o h
    rw [runLoop] at h
    rw [List.cons_append, runLoop]
    cases hpe : processEvent s ev with
    | next s2 =>
      rw [hpe] at h
      exact ih _ _ _ h
    | halt s2 o2 =>
      rw [hpe] at h
      exact h

theorem stateAt_live (evs : List Ev) (k : Nat) (hk : k ≤ evs.length)
    (ho : (runLoop initState (evs.take k)).2 = none) :
    stateAt evs k = (runLoop initState (evs.take k)).1 := by
  simp [stateAt, hk, ho]

theorem stateAt_done (evs : List Ev) (k : Nat)
    (h : ¬ (k ≤ evs.length ∧ (runLoop initState (evs.take k)).2 = none)) :
    stateAt evs k = endReconcile (runLoop initState (evs.take k)).1 := by
  simp only [stateAt]
  rw [if_neg h]

theorem stateAt_succ (evs : List Ev) (k : Nat) (hk : k < evs.length)
    (ho : (runLoop initState (evs.take k)).2 = none) :
    stateAt evs (k + 1) =
      match processEvent (runLoop initState (evs.take k)).1 evs[k] with
      | .next s2 => s2
      | .halt s2 _ => endReconcile s2 := by
  have htk : evs.take (k + 1) = evs.take k ++ [evs[k]] := by
    rw [List.take_succ, List.getElem?_eq_getElem hk]
    rfl
  have hpair : runLoop initState (evs.take k)
      = ((runLoop initState (evs.take k)).1, none) := Prod.ext rfl ho
  have hrl : runLoop initState (evs.take (k + 1))
      = runLoop (runLoop initState (evs.take k)).1 [evs[k]] := by
    rw [htk]
    exact runLoop_append_none _ _ _ _ hpair
  cases hpe : processEvent (runLoop initState (evs.take k)).1 evs[k] with
  | next s2 =>
    have h1 : runLoop (runLoop initState (evs.take k)).1 [evs[k]] = (s2, none) := by
      rw [runLoop, hpe]
      rfl
    simp [stateAt, hrl, h1, Nat.succ_le_of_lt hk]
  | halt s2 o =>
    have h1 : runLoop (runLoop initState (evs.take k)).1 [evs[k]] = (s2, some o) := by
      rw [runLoop, hpe]
    simp [stateAt, hrl, h1]

theorem runStream_halt (pre rest : List Ev) (s s2 : RecState) (ev : Ev) (o : StreamOutcome)
    (h : runLoop initState pre = (s, none)) (hpe : processEvent s ev = .halt s2 o) :
    runStream (pre ++ ev :: rest) = (endReconcile s2, o) := by
  simp only [runStream]
  rw [runLoop_append_none pre (ev :: rest) initState s h]
  rw [runLoop, hpe]
  rfl

theorem runStream_fail_halt (pre rest : List Ev) (s : RecState) (ev : Ev) (e : KoineError)
    (h : runLoop initState pre = (s, none))
    (hpe : processEvent s ev = .halt (failPending s e) (.raisedError e)) :
    (runStream (pre ++ ev :: rest)).2 = .raisedError e
    ∧ (runStream (pre ++ ev :: rest)).1.yielded = s.yielded
    ∧ (s.usageSlot = .pending →
        (runStream (pre ++ ev :: rest)).1.usageSlot = .failed e)
    ∧ (s.textSlot = .pending →
        (runStream (pre ++ ev :: rest)).1.textSlot = .failed e)
    ∧ (s.sessionSlot = .pending →
        (runStream (pre ++ ev :: rest)).1.sessionSlot = .failed e)
    ∧ (s.usageSlot ≠ .pending →
        (runStream (pre ++ ev :: rest)).1.usageSlot = s.usageSlot)
    ∧ (s.textSlot ≠ .pending →
        (runStream (pre ++ ev :: rest)).1.textSlot = s.textSlot)
    ∧ (s.sessionSlot ≠ .pending →
        (runStream (pre ++ ev :: rest)).1.sessionSlot = s.sessionSlot) := by
  rw [runStream_halt pre rest s _ ev _ h hpe]
  refine ⟨rfl, by simp [endReconcile, failPending], ?_, ?_, ?_, ?_, ?_, ?_⟩
  · intro hu
    simp [endReconcile, failPending, failIfPending, SlotState.isDone, hu]
  · intro ht
    simp [endReconcile, failPending, failIfPending, SlotState.isDone, ht]
  · intro hs2
    simp [endReconcile, failPending, failIfPending, SlotState.isDone, hs2]
  · intro hu
    cases hx : s.usageSlot with
    | pending => exact absurd hx hu
    | resolved v => simp [endReconcile, failPending, failIfPending, SlotState.isDone, hx]
    | failed e2 => simp [endReconcile, failPending, failIfPending, SlotState.isDone, hx]
  · intro ht
    cases hx : s.textSlot with
    | pending => exact absurd hx ht
    | resolved v => simp [endReconcile, failPending, failIfPending, SlotState.isDone, hx]
    | failed e2 => simp [endReconcile, failPending, failIfPending, SlotState.isDone, hx]
  · intro hs2
    cases hx : s.sessionSlot with
    | pending => exact absurd hx hs2
    | resolved v => simp [endReconcile, failPending, failIfPending, SlotState.isDone, hx]
    | failed e2 => simp [endReconcile, failPending, failIfPending, SlotState.isDone, hx]

/-- Claim C1: for every event sequence processed by the reconciler, whenever
the full-text slot resolves — at observable step k to k+1 of the run, loop
transitions and the end-of-stream reconciliation alike — its value equals the
exact concatenation, in arrival order, of all text fragments yielded through
the outward sequence prior to that resolution; in particular the resolving
transition itself yields nothing. -/
theorem C1_fulltext_concat (evs : List Ev) (k : Nat) (v : String)
    (hp : (stateAt evs k).textSlot = .pending)
    (hr : (stateAt evs (k + 1)).textSlot = .resolved v) :
    v = String.join (stateAt evs (k + 1)).yielded
    ∧ (stateAt evs (k + 1)).yielded = (stateAt evs k).yielded := by
  rcases Nat.lt_or_ge k evs.length with hk | hk
  · cases ho : (runLoop initState (evs.take k)).2 with
    | some o =>
      rw [stateAt_done evs k (by simp [ho])] at hp
      exact absurd hp (endReconcile_text_terminal _)
    | none =>
      have hsk := stateAt_live evs k (Nat.le_of_lt hk) ho
      rw [hsk] at hp
      have hsucc := stateAt_succ evs k hk ho
      have hinv : (runLoop initState (evs.take k)).1.accumulated
          = String.join (runLoop initState (evs.take k)).1.yielded :=
        runLoop_acc _ initState rfl
      cases he : evs[k] with
      | session p =>
        cases p with
        | some sid =>
          rw [he] at hsucc
          simp only [processEvent] at hsucc
          rw [hsucc] at hr
          simp [hp] at hr
        | none =>
          rw [he] at hsucc
          simp only [processEvent] at hsucc
          rw [hsucc] at hr
          simp [endReconcile, failPending, failIfPending, SlotState.isDone, hp] at hr
      | text p =>
        cases p with
        | some t =>
          rw [he] at hsucc
          simp only [processEvent] at hsucc
          rw [hsucc] at hr
          simp [hp] at hr
        | none =>
          rw [he] at hsucc
          simp only [processEvent] at hsucc
          rw [hsucc] at hr
          simp [hp] at hr
      | result p =>
        cases p with
        | some q =>
          rw [he] at hsucc
          by_cases hd : (runLoop initState (evs.take k)).1.usageSlot.isDone
          · simp only [processEvent, if_pos hd] at hsucc
            rw [hsucc] at hr
            simp only [endReconcile] at hr
            rw [hp] at hr
            simp only [SlotState.isDone] at hr
            simp only [Bool.false_eq_true, if_false] at hr
            have hv : (runLoop initState (evs.take k)).1.accumulated = v := by
              simpa using hr
            constructor
            · rw [hsucc]
              simp only [endReconcile]
              rw [← hv]
              exact hinv
            · rw [hsucc, hsk]
              simp [endReconcile]
          · simp only [processEvent, if_neg hd] at hsucc
            rw [hsucc] at hr
            simp [hp] at hr
        | none =>
          rw [he] at hsucc
          simp only [processEvent] at hsucc
          rw [hsucc] at hr
          simp [endReconcile, failPending, failIfPending, SlotState.isDone, hp] at hr
      | error p =>
        cases p with
        | some q =>
          rw [he] at hsucc
          simp only [processEvent] at hsucc
          rw [hsucc] at hr
          simp [endReconcile, failPending, failIfPending, SlotState.isDone, hp] at hr
        | none =>
          rw [he] at hsucc
          simp only [processEvent] at hsucc
          rw [hsucc] at hr
          simp [endReconcile, failPending, failIfPending, SlotState.isDone, hp] at hr
      | done d =>
        rw [he] at hsucc
        simp only [processEvent] at hsucc
        rw [hsucc] at hr
        rw [hp] at hr
        simp only [SlotState.isDone] at hr
        simp only [Bool.false_eq_true, if_false] at hr
        have hv : (runLoop initState (evs.take k)).1.accumulated = v := by
          simpa using hr
        constructor
        · rw [hsucc]
          simp only []
          rw [← hv]
          exact hinv
        · rw [hsucc, hsk]
      | other t =>
        rw [he] at hsucc
        simp only [processEvent] at hsucc
        rw [hsucc] at hr
        simp [hp] at hr
  · have htk : evs.take k = evs := List.take_of_length_le hk
    have htk1 : evs.take (k + 1) = evs := List.take_of_length_le (Nat.le_succ_of_le hk)
    cases ho : (runLoop initState (evs.take k)).2 with
    | some o =>
      rw [stateAt_done evs k (by simp [ho])] at hp
      exact absurd hp (endReconcile_text_terminal _)
    | none =>
      by_cases hkl : k ≤ evs.length
      · have hsk := stateAt_live evs k hkl ho
        rw [hsk] at hp
        have hs1 : stateAt evs (k + 1)
            = endReconcile (runLoop initState (evs.take k)).1 := by
          rw [stateAt_done evs (k + 1) (by intro hx; omega)]
          rw [htk1, htk]
        have hinv : (runLoop initState (evs.take k)).1.accumulated
            = String.join (runLoop initState (evs.take k)).1.yielded :=
          runLoop_acc _ initState rfl
        rw [hs1] at hr
        simp only [endReconcile] at hr
        rw [hp] at hr
        simp only [SlotState.isDone] at hr
        simp only [Bool.false_eq_true, if_false] at hr
        have hv : (runLoop initState (evs.take k)).1.accumulated = v := by
          simpa using hr
        constructor
        · rw [hs1]
          simp only [endReconcile]
          rw [← hv]
          exact hinv
        · rw [hs1, hsk]
          simp [endReconcile]
      · rw [stateAt_done evs k (by intro hx; exact hkl hx.1)] at hp
        exact absurd hp (endReconcile_text_terminal _)

/-- Witness for C1_fulltext_concat at the concrete normal-flow run of the
specification example: after four events the text slot is pending, the done
event resolves it in step five. -/
theorem C1_fulltext_concat_witness :
    ((stateAt
        [Ev.session (some ("s")), Ev.text (some ("Hello")),
          Ev.text (some (", world!")), Ev.result (some (("s", ⟨5, 3, 8⟩))),
          Ev.done ("")] 4).textSlot = .pending)
    ∧ ((stateAt
        [Ev.session (some ("s")), Ev.text (some ("Hello")),
          Ev.text (some (", world!")), Ev.result (some (("s", ⟨5, 3, 8⟩))),
          Ev.done ("")] 5).textSlot = .resolved ("Hello, world!"))
    ∧ ("Hello, world!"
        = String.join (stateAt
            [Ev.session (some ("s")), Ev.text (some ("Hello")),
              Ev.text (some (", world!")), Ev.result (some (("s", ⟨5, 3, 8⟩))),
              Ev.done ("")] 5).yielded
        ∧ (stateAt
            [Ev.session (some ("s")), Ev.text (some ("Hello")),
              Ev.text (some (", world!")), Ev.result (some (("s", ⟨5, 3, 8⟩))),
              Ev.done ("")] 5).yielded
          = (stateAt
              [Ev.session (some ("s")), Ev.text (some ("Hello")),
                Ev.text (some (", world!")), Ev.result (some (("s", ⟨5, 3, 8⟩))),
                Ev.done ("")] 4).yielded) :=
  ⟨by decide, by decide,
    C1_fulltext_concat
      [Ev.session (some ("s")), Ev.text (some ("Hello")),
        Ev.text (some (", world!")), Ev.result (some (("s", ⟨5, 3, 8⟩))),
        Ev.done ("")] 4 "Hello, world!" (by decide) (by decide)⟩

/-- Claim C2 fails on the code: a duplicate result event calls set_result on
the already-resolved usage future without a done() guard (client.py line 258),
so asyncio raises InvalidStateError and the outward sequence aborts with it —
an observable effect, not a no-op — while the first outcome stays in the
slot.  This theorem evaluates the embedded code at that failing input. -/
theorem C2_duplicate_result_invalid_state :
    (runStream [Ev.result (some (("s1", ⟨1, 1, 2⟩))),
        Ev.result (some (("s1", ⟨9, 9, 18⟩)))]).2 = .invalidState
    ∧ (runStream [Ev.result (some (("s1", ⟨1, 1, 2⟩))),
        Ev.result (some (("s1", ⟨9, 9, 18⟩)))]).1.usageSlot
        = .resolved ⟨1, 1, 2⟩ := by
  decide

/-- Claim C4: the end-of-stream reconciliation runs exactly once, on every
termination of the reconciler (runStream applies it on each exit path, and
abandoned iteration corresponds to running on the processed prefix): a
still-pending session slot is failed with NO_SESSION, a still-pending usage
slot is failed with NO_USAGE, a still-pending text slot is resolved with the
text accumulated so far, terminal slots are retained, and the full-text slot
always reaches a terminal state and is never failed by stream end alone. -/
theorem C4_end_of_stream_reconciliation (evs : List Ev) :
    ((runLoop initState evs).1.sessionSlot = .pending →
        (runStream evs).1.sessionSlot = .failed noSessionError)
    ∧ ((runLoop initState evs).1.sessionSlot ≠ .pending →
        (runStream evs).1.sessionSlot = (runLoop initState evs).1.sessionSlot)
    ∧ ((runLoop initState evs).1.usageSlot = .pending →
        (runStream evs).1.usageSlot = .failed noUsageError)
    ∧ ((runLoop initState evs).1.usageSlot ≠ .pending →
        (runStream evs).1.usageSlot = (runLoop initState evs).1.usageSlot)
    ∧ ((runLoop initState evs).1.textSlot = .pending →
        (runStream evs).1.textSlot = .resolved (runLoop initState evs).1.accumulated)
    ∧ (runStream evs).1.textSlot ≠ .pending
    ∧ (∀ e, (runStream evs).1.textSlot = .failed e →
        (runLoop initState evs).1.textSlot = .failed e) := by
  have hrs : (runStream evs).1 = endReconcile (runLoop initState evs).1 := by
    simp [runStream]
  refine ⟨?_, ?_, ?_, ?_, ?_, ?_, ?_⟩ <;> rw [hrs]
  · intro h
    simp [endReconcile, failIfPending, SlotState.isDone, h]
  · intro h
    cases hx : (runLoop initState evs).1.sessionSlot with
    | pending => exact absurd hx h
    | resolved v => simp [endReconcile, failIfPending, SlotState.isDone, hx]
    | failed e => simp [endReconcile, failIfPending, SlotState.isDone, hx]
  · intro h
    simp [endReconcile, failIfPending, SlotState.isDone, h]
  · intro h
    cases hx : (runLoop initState evs).1.usageSlot with
    | pending => exact absurd hx h
    | resolved v => simp [endReconcile, failIfPending, SlotState.isDone, hx]
    | failed e => simp [endReconcile, failIfPending, SlotState.isDone, hx]
  · intro h
    simp [endReconcile, SlotState.isDone, h]
  · exact endReconcile_text_terminal _
  · intro e
    cases hx : (runLoop initState evs).1.textSlot with
    | pending => simp [endReconcile, SlotState.isDone, hx]
    | resolved v => simp [endReconcile, SlotState.isDone, hx]
    | failed e2 => simp [endReconcile, SlotState.isDone, hx]

/-- Witness for C4_end_of_stream_reconciliation on a run that ends after one
text event with every slot still pending. -/
theorem C4_end_of_stream_reconciliation_witness :
    ((runLoop initState [Ev.text (some ("hi"))]).1.sessionSlot = .pending
      ∧ (runLoop initState [Ev.text (some ("hi"))]).1.usageSlot = .pending
      ∧ (runLoop initState [Ev.text (some ("hi"))]).1.textSlot = .pending)
    ∧ ((runStream [Ev.text (some ("hi"))]).1.sessionSlot = .failed noSessionError
      ∧ (runStream [Ev.text (some ("hi"))]).1.usageSlot = .failed noUsageError
      ∧ (runStream [Ev.text (some ("hi"))]).1.textSlot
          = .resolved (runLoop initState [Ev.text (some ("hi"))]).1.accumulated
      ∧ (runStream [Ev.text (some ("hi"))]).1.textSlot ≠ .pending) :=
  ⟨⟨by decide, by decide, by decide⟩,
    (C4_end_of_stream_reconciliation [Ev.text (some ("hi"))]).1 (by decide),
    (C4_end_of_stream_reconciliation [Ev.text (some ("hi"))]).2.2.1 (by decide),
    (C4_end_of_stream_reconciliation [Ev.text (some ("hi"))]).2.2.2.2.1 (by decide),
    (C4_end_of_stream_reconciliation [Ev.text (some ("hi"))]).2.2.2.2.2.1⟩

/-- Claim C5: on an error event with a parseable payload arriving while the
loop is live, the reconciler constructs an error from the payload message and
code — the code falling back to STREAM_ERROR when no code is supplied, which
under the source's falsy-or (client.py line 266) covers both a missing and an
empty-string code, while any nonempty code is carried verbatim — fails every
still-pending slot with that same error, retains terminal slots, and
terminates the outward text sequence by raising that same error, yielding no
further fragments. -/
theorem C5_error_event (pre rest : List Ev) (msg : String) (c : Option String)
    (s : RecState) (h : runLoop initState pre = (s, none)) :
    (c = none → orStreamError c = "STREAM_ERROR")
    ∧ (c = some ("") → orStreamError c = "STREAM_ERROR")
    ∧ (∀ cc, c = some cc → cc ≠ "" → orStreamError c = cc)
    ∧ (runStream (pre ++ Ev.error (some ((msg, c))) :: rest)).2
        = .raisedError { message := msg, code := orStreamError c }
    ∧ (runStream (pre ++ Ev.error (some ((msg, c))) :: rest)).1.yielded = s.yielded
    ∧ (s.usageSlot = .pending →
        (runStream (pre ++ Ev.error (some ((msg, c))) :: rest)).1.usageSlot
          = .failed { message := msg, code := orStreamError c })
    ∧ (s.textSlot = .pending →
        (runStream (pre ++ Ev.error (some ((msg, c))) :: rest)).1.textSlot
          = .failed { message := msg, code := orStreamError c })
    ∧ (s.sessionSlot = .pending →
        (runStream (pre ++ Ev.error (some ((msg, c))) :: rest)).1.sessionSlot
          = .failed { message := msg, code := orStreamError c })
    ∧ (s.usageSlot ≠ .pending →
        (runStream (pre ++ Ev.error (some ((msg, c))) :: rest)).1.usageSlot
          = s.usageSlot)
    ∧ (s.textSlot ≠ .pending →
        (runStream (pre ++ Ev.error (some ((msg, c))) :: rest)).1.textSlot
          = s.textSlot)
    ∧ (s.sessionSlot ≠ .pending →
        (runStream (pre ++ Ev.error (some ((msg, c))) :: rest)).1.sessionSlot
          = s.sessionSlot) := by
  refine ⟨?_, ?_, ?_, ?_⟩
  · intro hn
    rw [hn]
    decide
  · intro hn
    rw [hn]
    decide
  · intro cc hcc hne
    rw [hcc]
    simp [orStreamError, hne]
  · exact runStream_fail_halt pre rest s (Ev.error (some ((msg, c))))
      { message := msg, code := orStreamError c } h rfl

/-- Witness for C5_error_event on the specification example run — session,
one text fragment, then a RATE_LIMIT error event — and on the same run with a
supplied empty-string code, which the falsy-or replaces by STREAM_ERROR. -/
theorem C5_error_event_witness :
    (runLoop initState [Ev.session (some ("es")), Ev.text (some ("Partial"))]
        = ({ sessionSlot := .resolved ("es"), usageSlot := .pending
             textSlot := .pending, accumulated := "Partial"
             yielded := ["Partial"] }, none))
    ∧ ((runStream ([Ev.session (some ("es")), Ev.text (some ("Partial"))]
          ++ Ev.error (some (("Rate limit exceeded", some ("RATE_LIMIT")))) :: [])).2
        = .raisedError { message := "Rate limit exceeded", code := "RATE_LIMIT" })
    ∧ ((runStream ([Ev.session (some ("es")), Ev.text (some ("Partial"))]
          ++ Ev.error (some (("Rate limit exceeded", some ("")))) :: [])).2
        = .raisedError { message := "Rate limit exceeded", code := "STREAM_ERROR" }) := by
  refine ⟨by decide, ?_, ?_⟩
  · have hc := C5_error_event [Ev.session (some ("es")), Ev.text (some ("Partial"))] []
      "Rate limit exceeded" (some ("RATE_LIMIT"))
      { sessionSlot := .resolved ("es"), usageSlot := .pending
        textSlot := .pending, accumulated := "Partial", yielded := ["Partial"] }
      (by decide)
    rw [hc.2.2.2.1]
    decide
  · have hc := C5_error_event [Ev.session (some ("es")), Ev.text (some ("Partial"))] []
      "Rate limit exceeded" (some (""))
      { sessionSlot := .resolved ("es"), usageSlot := .pending
        textSlot := .pending, accumulated := "Partial", yielded := ["Partial"] }
      (by decide)
    rw [hc.2.2.2.1]
    decide

/-- Claim C6 counterexample: a done event whose payload is not valid JSON is a
malformed critical event in the claim's sense, yet the code never parses the
done payload (client.py lines 277-280), so the stream is not aborted: the run
completes normally, the text slot resolves, no slot carries the parse error,
and no SSE_PARSE_ERROR is raised. -/
theorem C6_counterexample :
    (runStream [Ev.done ("not json")]).2 = .completed
    ∧ (runStream [Ev.done ("not json")]).1.textSlot = .resolved ("")
    ∧ (runStream [Ev.done ("not json")]).1.sessionSlot = .failed noSessionError
    ∧ (runStream [Ev.done ("not json")]).1.usageSlot = .failed noUsageError := by
  decide

/-- Claim C6 (amended): a malformed session, result or error event aborts the
stream — every still-pending slot is failed with the dedicated SSE_PARSE_ERROR
and that same error terminates the outward sequence with no further yields; a
malformed text event is ignored silently and iteration continues unchanged;
a done event's payload is never parsed, so its content cannot abort the
stream. -/
theorem C6_parse_failure_policy (pre rest : List Ev) (s : RecState) (d : String)
    (h : runLoop initState pre = (s, none)) :
    (runStream (pre ++ Ev.session none :: rest)).2
        = .raisedError (sseParseError ("session"))
    ∧ (runStream (pre ++ Ev.session none :: rest)).1.yielded = s.yielded
    ∧ (s.usageSlot = .pending →
        (runStream (pre ++ Ev.session none :: rest)).1.usageSlot
          = .failed (sseParseError ("session")))
    ∧ (s.textSlot = .pending →
        (runStream (pre ++ Ev.session none :: rest)).1.textSlot
          = .failed (sseParseError ("session")))
    ∧ (s.sessionSlot = .pending →
        (runStream (pre ++ Ev.session none :: rest)).1.sessionSlot
          = .failed (sseParseError ("session")))
    ∧ (runStream (pre ++ Ev.result none :: rest)).2
        = .raisedError (sseParseError ("result"))
    ∧ (runStream (pre ++ Ev.result none :: rest)).1.yielded = s.yielded
    ∧ (s.usageSlot = .pending →
        (runStream (pre ++ Ev.result none :: rest)).1.usageSlot
          = .failed (sseParseError ("result")))
    ∧ (s.textSlot = .pending →
        (runStream (pre ++ Ev.result none :: rest)).1.textSlot
          = .failed (sseParseError ("result")))
    ∧ (s.sessionSlot = .pending →
        (runStream (pre ++ Ev.result none :: rest)).1.sessionSlot
          = .failed (sseParseError ("result")))
    ∧ (runStream (pre ++ Ev.error none :: rest)).2
        = .raisedError (sseParseError ("error"))
    ∧ (runStream (pre ++ Ev.error none :: rest)).1.yielded = s.yielded
    ∧ (s.usageSlot = .pending →
        (runStream (pre ++ Ev.error none :: rest)).1.usageSlot
          = .failed (sseParseError ("error")))
    ∧ (s.textSlot = .pending →
        (runStream (pre ++ Ev.error none :: rest)).1.textSlot
          = .failed (sseParseError ("error")))
    ∧ (s.sessionSlot = .pending →
        (runStream (pre ++ Ev.error none :: rest)).1.sessionSlot
          = .failed (sseParseError ("error")))
    ∧ runLoop initState (pre ++ Ev.text none :: rest) = runLoop s rest
    ∧ runStream (pre ++ Ev.done d :: rest)
        = runStream (pre ++ Ev.done ("") :: rest) := by
  obtain ⟨a1, a2, a3, a4, a5, -, -, -⟩ :=
    runStream_fail_halt pre rest s (Ev.session none) (sseParseError ("session")) h rfl
  obtain ⟨b1, b2, b3, b4, b5, -, -, -⟩ :=
    runStream_fail_halt pre rest s (Ev.result none) (sseParseError ("result")) h rfl
  obtain ⟨c1, c2, c3, c4, c5, -, -, -⟩ :=
    runStream_fail_halt pre rest s (Ev.error none) (sseParseError ("error")) h rfl
  have htext : runLoop initState (pre ++ Ev.text none :: rest) = runLoop s rest := by
    rw [runLoop_append_none pre (Ev.text none :: rest) initState s h]
    rfl
  have hdone : runStream (pre ++ Ev.done d :: rest)
      = runStream (pre ++ Ev.done ("") :: rest) := by
    simp only [runStream]
    rw [runLoop_append_none pre (Ev.done d :: rest) initState s h,
      runLoop_append_none pre (Ev.done ("") :: rest) initState s h]
    rfl
  exact ⟨a1, a2, a3, a4, a5, b1, b2, b3, b4, b5, c1, c2, c3, c4, c5, htext, hdone⟩

/-- Witness for C6_parse_failure_policy on a live run with one prior text
fragment and every slot pending. -/
theorem C6_parse_failure_policy_witness :
    (runLoop initState [Ev.text (some ("Par"))]
        = ({ sessionSlot := .pending, usageSlot := .pending
             textSlot := .pending, accumulated := "Par"
             yielded := ["Par"] }, none))
    ∧ ((runStream ([Ev.text (some ("Par"))] ++ Ev.session none :: [])).2
          = .raisedError (sseParseError ("session"))
      ∧ (runStream ([Ev.text (some ("Par"))] ++ Ev.result none :: [])).2
          = .raisedError (sseParseError ("result"))
      ∧ (runStream ([Ev.text (some ("Par"))] ++ Ev.done ("junk") :: []))
          = runStream ([Ev.text (some ("Par"))] ++ Ev.done ("") :: [])) := by
  refine ⟨by decide, ?_, ?_, ?_⟩
  · exact (C6_parse_failure_policy [Ev.text (some ("Par"))] []
      { sessionSlot := .pending, usageSlot := .pending
        textSlot := .pending, accumulated := "Par", yielded := ["Par"] }
      "junk" (by decide)).1
  · exact (C6_parse_failure_policy [Ev.text (some ("Par"))] []
      { sessionSlot := .pending, usageSlot := .pending
        textSlot := .pending, accumulated := "Par", yielded := ["Par"] }
      "junk" (by decide)).2.2.2.2.2.1
  · exact (C6_parse_failure_policy [Ev.text (some ("Par"))] []
      { sessionSlot := .pending, usageSlot := .pending
        textSlot := .pending, accumulated := "Par", yielded := ["Par"] }
      "junk" (by decide)).2.2.2.2.2.2.2.2.2.2.2.2.2.2.2.2

/-! ### Stream session lemmas -/

theorem count_map_yield (l : List String) (a : SessionAction)
    (h : ∀ t, a ≠ SessionAction.yieldText t) :
    (l.map SessionAction.yieldText).count a = 0 := by
  rw [List.count_eq_zero]
  intro hm
  obtain ⟨t, _, ht⟩ := List.mem_map.mp hm
  exact h t ht.symm

/-- Claim C8: a non-2xx status on the initial HTTP exchange makes the open
operation fail immediately with the parsed error: the body parsed as a
structured error payload when possible, yielding its code and message, and
otherwise a generic error with code HTTP_ERROR whose message carries the
numeric status code and the reason phrase. -/
theorem C8_non_2xx_open_fails (r : HttpResponse) (h : r.isSuccess = false) :
    (streamTextOpen r).2 = some (parse_error_response r)
    ∧ (∀ g, r.errorBody = some g →
        parse_error_response r
          = { message := g.error, code := g.code, rawText := g.rawText })
    ∧ (r.errorBody = none →
        (parse_error_response r).code = "HTTP_ERROR"
        ∧ (parse_error_response r).message
            = "HTTP " ++ toString r.statusCode ++ " " ++ r.reasonPhrase) := by
  refine ⟨by simp [streamTextOpen, h], ?_, ?_⟩
  · intro g hg
    simp [parse_error_response, hg]
  · intro hg
    simp [parse_error_response, hg]

/-- Witness for C8_non_2xx_open_fails at a 500 response with an unparseable
body, as in the specification example. -/
theorem C8_non_2xx_open_fails_witness :
    (HttpResponse.isSuccess ⟨500, "Internal Server Error", none⟩ = false)
    ∧ ((streamTextOpen ⟨500, "Internal Server Error", none⟩).2
          = some (parse_error_response ⟨500, "Internal Server Error", none⟩)
      ∧ (parse_error_response ⟨500, "Internal Server Error", none⟩).code
          = "HTTP_ERROR"
      ∧ (parse_error_response ⟨500, "Internal Server Error", none⟩).message
          = "HTTP 500 Internal Server Error") := by
  have hc := C8_non_2xx_open_fails ⟨500, "Internal Server Error", none⟩ (by decide)
  refine ⟨by decide, hc.1, (hc.2.2 rfl).1, ?_⟩
  rw [(hc.2.2 rfl).2]
  decide

/-- Claim C9: once the outward text sequence reaches its end — by normal
completion, raised error, or the caller abandoning iteration early — the
transport trace closes the response and then the HTTP client, each exactly
once, after all yielded fragments; the stream is never left open after the
sequence has terminated. -/
theorem C9_resources_released (evs : List Ev) (abandonAfter : Option Nat) :
    (∃ ys : List String,
        sessionTrace evs abandonAfter
          = (ys.map SessionAction.yieldText)
              ++ [SessionAction.closeResponse, SessionAction.closeClient])
    ∧ (sessionTrace evs abandonAfter).count SessionAction.closeResponse = 1
    ∧ (sessionTrace evs abandonAfter).count SessionAction.closeClient = 1 := by
  refine ⟨⟨(runLoop initState (match abandonAfter with
      | none => evs | some k => evs.take k)).1.yielded, rfl⟩, ?_, ?_⟩
  · rw [sessionTrace.eq_def, List.count_append,
      count_map_yield _ _ (fun t => by simp)]
    rfl
  · rw [sessionTrace.eq_def, List.count_append,
      count_map_yield _ _ (fun t => by simp)]
    rfl

/-- Claim C10: on a non-2xx initial response, stream_text reads the response
body to completion and closes the HTTP client, in that order, before raising
the parsed error, which reflects the fully read body. -/
theorem C10_open_failure_cleanup (r : HttpResponse) (h : r.isSuccess = false) :
    (streamTextOpen r).1 = [SessionAction.readBody, SessionAction.closeClient]
    ∧ (streamTextOpen r).2 = some (parse_error_response r) := by
  constructor <;> simp [streamTextOpen, h]

/-- Witness for C10_open_failure_cleanup at a 401 response with a parsed
gateway error body. -/
theorem C10_open_failure_cleanup_witness :
    (HttpResponse.isSuccess ⟨401, "Unauthorized",
        some { error := "Invalid API key", code := "UNAUTHORIZED" }⟩ = false)
    ∧ ((streamTextOpen ⟨401, "Unauthorized",
          some { error := "Invalid API key", code := "UNAUTHORIZED" }⟩).1
        = [SessionAction.readBody, SessionAction.closeClient]
      ∧ (streamTextOpen ⟨401, "Unauthorized",
          some { error := "Invalid API key", code := "UNAUTHORIZED" }⟩).2
        = some (parse_error_response ⟨401, "Unauthorized",
            some { error := "Invalid API key", code := "UNAUTHORIZED" }⟩)) :=
  ⟨by decide,
    C10_open_failure_cleanup ⟨401, "Unauthorized",
      some { error := "Invalid API key", code := "UNAUTHORIZED" }⟩ (by decide)⟩

end Koine
